import Mathlib

/-!
Verification development for the climbing-tracker joint-angle pipeline.

The frontend of the repository (`frontend/src/App.jsx`) is embedded
directly.  The backend pipeline (frame governor, geometry kernel, run
orchestrator, quaternion series aligner) is not part of the available
sources; those components are modelled from the specification, as marked
on each definition.
-/

open Real
open Classical

/-- Clamp a real number into the closed interval from lo to hi. -/
def clamp (x lo hi : ℝ) : ℝ := max lo (min hi x)

/-- Modelled from the spec: 3-D point used by the Geometry Kernel
(backend geometry code is not in the available sources). -/
structure Point3 where
  x : ℝ
  y : ℝ
  z : ℝ

/-- Componentwise subtraction of points (vector from b to a). -/
def Point3.sub (a b : Point3) : Point3 := ⟨a.x - b.x, a.y - b.y, a.z - b.z⟩

/-- Euclidean dot product. -/
def Point3.dot (u v : Point3) : ℝ := u.x * v.x + u.y * v.y + u.z * v.z

/-- Euclidean length. -/
noncomputable def Point3.norm (u : Point3) : ℝ := Real.sqrt (u.dot u)

/-- Modelled from the spec: `joint_angle(a, b, c)` of the Geometry Kernel
(backend file absent): the angle at vertex b between rays b→a and b→c,
acos of the clamped normalized dot product, converted to degrees; absent
when either ray has (approximately) zero length. -/
noncomputable def joint_angle (a b c : Point3) : Option ℝ :=
  let u := a.sub b
  let v := c.sub b
  if u.norm = 0 ∨ v.norm = 0 then none
  else some (Real.arccos (clamp (u.dot v / (u.norm * v.norm)) (-1) 1) * 180 / π)

/-- Modelled from the spec: quaternion sample value used by the Geometry
Kernel (backend quaternion code absent). -/
structure Quat where
  w : ℝ
  x : ℝ
  y : ℝ
  z : ℝ

/-- Quaternion conjugate. -/
def Quat.conj (q : Quat) : Quat := ⟨q.w, -q.x, -q.y, -q.z⟩

/-- Hamilton product of quaternions. -/
def Quat.mul (p q : Quat) : Quat :=
  ⟨p.w * q.w - p.x * q.x - p.y * q.y - p.z * q.z,
   p.w * q.x + p.x * q.w + p.y * q.z - p.z * q.y,
   p.w * q.y - p.x * q.z + p.y * q.w + p.z * q.x,
   p.w * q.z + p.x * q.y - p.y * q.x + p.z * q.w⟩

/-- Quaternion norm. -/
noncomputable def Quat.qnorm (q : Quat) : ℝ :=
  Real.sqrt (q.w ^ 2 + q.x ^ 2 + q.y ^ 2 + q.z ^ 2)

/-- Scale a quaternion by a real factor. -/
def Quat.scale (c : ℝ) (q : Quat) : Quat := ⟨c * q.w, c * q.x, c * q.y, c * q.z⟩

/-- Modelled from the spec: normalization before use (backend quaternion
code absent); the zero quaternion is left unchanged. -/
noncomputable def Quat.normalize (q : Quat) : Quat :=
  if q.qnorm = 0 then q else Quat.scale (1 / q.qnorm) q

/-- Modelled from the spec: `relative_rotation_angle(q_ref, q_seg)` of the
Geometry Kernel (backend quaternion code absent): normalize both, form
q_rel as conjugate-and-multiply, and return 2·acos(clamp(|q_rel.w|,0,1))
in degrees. -/
noncomputable def relative_rotation_angle (q_ref q_seg : Quat) : ℝ :=
  let r := q_ref.normalize
  let s := q_seg.normalize
  let rel := Quat.mul r.conj s
  2 * Real.arccos (clamp |rel.w| 0 1) * 180 / π

/-- Modelled from the spec: a video frame as produced by the opaque frame
iterator; the pixel payload is irrelevant to the governed control flow and
is omitted. -/
structure Frame where
  index : ℕ
  timestamp_s : ℚ
deriving DecidableEq

/-- The sampling predicate: a frame is kept exactly when its original
index is a multiple of the stride. -/
def keepFrame (frame_skip : ℕ) (f : Frame) : Bool := f.index % frame_skip == 0

/-- Declarative sampling: the frames kept by the stride filter, in native
order. -/
def sampleFrames (frame_skip : ℕ) (frames : List Frame) : List Frame :=
  frames.filter (keepFrame frame_skip)

/-- Modelled from the spec: the sampling loop of the Frame Governor (backend
code absent).  Processes frames in native order with a count of kept
frames; keeping a frame that brings the count up to `max_frames` (when
positive) transitions to Capped: the frame is kept, no further frames are
pulled, and the truncated flag is set.  End of iterator transitions to
Exhausted with the flag clear. -/
def governRun (frame_skip max_frames : ℕ) : List Frame → ℕ → List Frame × Bool
  | [], _ => ([], false)
  | f :: rest, cnt =>
    if keepFrame frame_skip f then
      if 0 < max_frames ∧ max_frames ≤ cnt + 1 then ([f], true)
      else
        let r := governRun frame_skip max_frames rest (cnt + 1)
        (f :: r.1, r.2)
    else governRun frame_skip max_frames rest cnt

/-- A full governor pass over a frame source, starting with zero kept
frames: the kept frames and the truncated flag. -/
def governFrames (frame_skip max_frames : ℕ) (frames : List Frame) : List Frame × Bool :=
  governRun frame_skip max_frames frames 0

/-- Modelled from the spec: one estimated body-joint position in
normalized frame coordinates plus a visibility score (backend adapter
code absent). -/
structure Landmark where
  x : ℝ
  y : ℝ
  z : ℝ
  visibility : ℝ

/-- Modelled from the spec: a fixed-size ordered sequence of 33 landmark
points; a frame with no pose detected carries no set at all. -/
def LandmarkSet : Type := Fin 33 → Landmark

/-- Modelled from the spec: the fixed visibility threshold below which a
required landmark disqualifies its angle (the numeric value is not given
by the spec; any fixed value works for the stated properties). -/
noncomputable def visibilityThreshold : ℝ := 1 / 2

/-- The coordinate point of a landmark. -/
def Landmark.toPoint (lm : Landmark) : Point3 := ⟨lm.x, lm.y, lm.z⟩

/-- Modelled from the spec: one angle from a fixed index triple, absent
when any of the three required landmarks has low visibility, and
otherwise delegated to the geometry kernel (which may itself report the
degenerate case as absent). -/
noncomputable def angleFromTriple (lms : LandmarkSet) (i j k : Fin 33) : Option ℝ :=
  if visibilityThreshold ≤ (lms i).visibility ∧
     visibilityThreshold ≤ (lms j).visibility ∧
     visibilityThreshold ≤ (lms k).visibility
  then joint_angle (lms i).toPoint (lms j).toPoint (lms k).toPoint
  else none

/-- Modelled from the spec: the per-frame measurement record; each angle
is a value in degrees or absent. -/
structure AngleMeasurement where
  frame_index : ℕ
  time_s : ℚ
  left_elbow_deg : Option ℝ
  right_elbow_deg : Option ℝ
  left_hip_deg : Option ℝ
  right_hip_deg : Option ℝ
  left_knee_deg : Option ℝ
  right_knee_deg : Option ℝ

/-- Modelled from the spec: per-frame measurement via the fixed lookup
table of index triples (shoulder–elbow–wrist, shoulder–hip–knee,
hip–knee–ankle, per side, MediaPipe indexing); a frame with no pose
detected yields all-absent angles. -/
noncomputable def measureFrame (extract : Frame → Option LandmarkSet) (f : Frame) :
    AngleMeasurement :=
  match extract f with
  | none => ⟨f.index, f.timestamp_s, none, none, none, none, none, none⟩
  | some lms =>
      ⟨f.index, f.timestamp_s,
       angleFromTriple lms 11 13 15, angleFromTriple lms 12 14 16,
       angleFromTriple lms 11 23 25, angleFromTriple lms 12 24 26,
       angleFromTriple lms 23 25 27, angleFromTriple lms 24 26 28⟩

/-- Modelled from the spec: the buffered (all-at-once) run result. -/
structure BufferedResult where
  measurements : List AngleMeasurement
  total_frames : ℕ
  truncated : Bool

/-- Modelled from the spec: a buffered run drives governor, adapter and
kernel over the sampled frames and returns everything at the end; the
reported total is the planned processing count. -/
noncomputable def runBuffered (extract : Frame → Option LandmarkSet)
    (frame_skip max_frames : ℕ) (frames : List Frame) : BufferedResult :=
  let g := governFrames frame_skip max_frames frames
  ⟨g.1.map (measureFrame extract), g.1.length, g.2⟩

/-- Modelled from the spec: the tagged stream event variant. -/
inductive StreamEvent where
  | start (total_frames : ℕ)
  | progress (frame_index : ℕ)
  | done (measurements : List AngleMeasurement) (total_frames : ℕ) (truncated : Bool)
  | error (message : String)

/-- Modelled from the spec: an incremental run emits Start as soon as the
planned total is known, one Progress per processed frame carrying the
original frame index, and one terminal event.  `failAfter = some k`
models an unrecoverable failure after k processed frames, which aborts
with a terminal Error; `none` is a successful run ending in Done. -/
noncomputable def runIncremental (extract : Frame → Option LandmarkSet)
    (frame_skip max_frames : ℕ) (frames : List Frame) (failAfter : Option ℕ) :
    List StreamEvent :=
  let g := governFrames frame_skip max_frames frames
  match failAfter with
  | none =>
      StreamEvent.start g.1.length ::
        (g.1.map (fun f => StreamEvent.progress f.index) ++
          [StreamEvent.done (g.1.map (measureFrame extract)) g.1.length g.2])
  | some k =>
      StreamEvent.start g.1.length ::
        ((g.1.take k).map (fun f => StreamEvent.progress f.index) ++
          [StreamEvent.error "analysis failed"])

/-- The NDJSON discriminator value of an event. -/
def eventTag : StreamEvent → String
  | .start _ => "start"
  | .progress _ => "progress"
  | .done _ _ _ => "done"
  | .error _ => "error"

/-- Whether an event is a Start event. -/
def StreamEvent.isStart : StreamEvent → Bool
  | .start _ => true
  | _ => false

/-- Whether an event is a Progress event. -/
def StreamEvent.isProgress : StreamEvent → Bool
  | .progress _ => true
  | _ => false

/-- Whether an event is terminal (Done or Error). -/
def StreamEvent.isTerminal : StreamEvent → Bool
  | .done _ _ _ => true
  | .error _ => true
  | _ => false

/-- Whether an event is a Done event. -/
def StreamEvent.isDone : StreamEvent → Bool
  | .done _ _ _ => true
  | _ => false

/-- The frame indices carried by the Progress events of a stream, in
stream order. -/
def progressIndices (evs : List StreamEvent) : List ℕ :=
  evs.filterMap fun e =>
    match e with
    | .progress i => some i
    | _ => none

/-- The totals carried by the Start events of a stream, in stream order. -/
def startTotals (evs : List StreamEvent) : List ℕ :=
  evs.filterMap fun e =>
    match e with
    | .start t => some t
    | _ => none

/-- A concrete frame source with indices 0..n-1 and one-second
timestamps, used for the worked examples. -/
def mkFrames (n : ℕ) : List Frame :=
  (List.range n).map fun i => ⟨i, (i : ℚ)⟩

/-- Modelled from the spec: a parsed quaternion sample row. -/
structure QuaternionSample where
  timestamp : ℚ
  w : ℚ
  x : ℚ
  y : ℚ
  z : ℚ
deriving DecidableEq

/-- Modelled from the spec: a raw CSV data row after field splitting; a
field is `none` when it is not numeric. -/
structure RawRow where
  fields : List (Option ℚ)
deriving DecidableEq

/-- Modelled from the spec: row parsing; a row parses only when it has
exactly the five expected columns and every field is numeric. -/
def parseRow (r : RawRow) : Option QuaternionSample :=
  match r.fields with
  | [some t, some w, some x, some y, some z] => some ⟨t, w, x, y, z⟩
  | _ => none

/-- Modelled from the spec: parsing one stream yields the valid samples in
order together with the count of skipped malformed rows. -/
def parseStream (rows : List RawRow) : List QuaternionSample × ℕ :=
  (rows.filterMap parseRow, rows.countP fun r => (parseRow r).isNone)

/-- The quaternion value of a sample. -/
def QuaternionSample.toQuat (s : QuaternionSample) : Quat :=
  ⟨(s.w : ℝ), (s.x : ℝ), (s.y : ℝ), (s.z : ℝ)⟩

/-- Modelled from the spec: the aligner result surfaced to the caller —
the angle series plus the skipped-row counts. -/
structure ImuResult where
  angles : List (ℚ × ℝ)
  skipped1 : ℕ
  skipped2 : ℕ

/-- Modelled from the spec: pair valid samples by ordinal position and
compute the relative rotation angle for each pair. -/
noncomputable def analyzeImu (rows1 rows2 : List RawRow) : ImuResult :=
  let p1 := parseStream rows1
  let p2 := parseStream rows2
  ⟨(p1.1.zip p2.1).map fun p =>
      (p.1.timestamp, relative_rotation_angle p.1.toQuat p.2.toQuat),
   p1.2, p2.2⟩

/-- Ordinal pairing of two bare quaternion streams. -/
noncomputable def angleSeries (s1 s2 : List Quat) : List ℝ :=
  List.zipWith relative_rotation_angle s1 s2

/-- A parsed stream event as seen by the frontend consumer; `other` is a
JSON object whose `event` field matches none of the four handled
discriminators.  The `done` payload mirrors the fields the consumer
stores. -/
inductive SEvent where
  | start (total_frames : ℕ)
  | progress (frame_index : ℕ)
  | done (frames : List ℕ) (total_frames : ℕ) (truncated : Bool)
  | error (message : String)
  | other
deriving DecidableEq

/-- The result record the consumer stores on a done event
(`setResult(\x7b type, frames, total_frames, truncated \x7d)`). -/
structure VideoResult where
  frames : List ℕ
  total_frames : ℕ
  truncated : Bool
deriving DecidableEq

/-- The mutable state of the consumer: progress total, progress current, and
the stored result. -/
structure ConsumerState where
  progressTotal : ℕ
  progressCurrent : ℕ
  result : Option VideoResult
deriving DecidableEq

/-- The consumer state at the start of a run. -/
def initialConsumerState : ConsumerState := ⟨0, 0, none⟩

/-- Whitespace as removed by JavaScript trim, restricted to the
characters relevant here. -/
def isSpaceChar (c : Char) : Bool := c = ' ' || c = '\n' || c = '\t' || c = '\r'

/-- JavaScript-style trim on a character list. -/
def trimChars (l : List Char) : List Char :=
  ((l.dropWhile isSpaceChar).reverse.dropWhile isSpaceChar).reverse

/-- JavaScript split on the newline character: always returns one more
piece than there are newlines, including empty pieces. -/
def splitNl : List Char → List (List Char)
  | [] => [[]]
  | c :: rest =>
    match splitNl rest with
    | [] => [[]]
    | l :: ls => if c = '\n' then [] :: l :: ls else (c :: l) :: ls

/-- One line of the consumer loop (App.jsx lines 102-110): skip blank
lines; a line that fails to parse (SyntaxError) is skipped silently;
start, progress and done update the state; a parsed error event throws,
aborting the run. -/
def handleLine (parse : List Char → Option SEvent) (st : ConsumerState)
    (line : List Char) : Except String ConsumerState :=
  let trimmed := trimChars line
  if trimmed = [] then .ok st
  else
    match parse trimmed with
    | none => .ok st
    | some (.start t) => .ok { st with progressTotal := t }
    | some (.progress i) => .ok { st with progressCurrent := i }
    | some (.done fr t tr) => .ok { st with result := some ⟨fr, t, tr⟩ }
    | some (.error m) => .error m
    | some .other => .ok st

/-- Processing the complete lines extracted from the buffer, in order. -/
def processLines (parse : List Char → Option SEvent) (st : ConsumerState)
    (lines : List (List Char)) : Except String ConsumerState :=
  lines.foldlM (handleLine parse) st

/-- One reader chunk (App.jsx lines 99-101): append the chunk to the
buffer, split on newlines, keep the final incomplete piece as the new
buffer, and process the complete lines. -/
def feedChunk (parse : List Char → Option SEvent)
    (acc : List Char × ConsumerState) (chunk : List Char) :
    Except String (List Char × ConsumerState) :=
  let buffer := acc.1 ++ chunk
  let parts := splitNl buffer
  match processLines parse acc.2 parts.dropLast with
  | .ok st => .ok (parts.getLastD [], st)
  | .error m => .error m

/-- The trailing-buffer flush after the reader is done (App.jsx lines
117-125): a nonempty remainder is parsed once; only done and error events
are acted on, and a SyntaxError is swallowed. -/
def flushBuffer (parse : List Char → Option SEvent) (buffer : List Char)
    (st : ConsumerState) : Except String ConsumerState :=
  let t := trimChars buffer
  if t = [] then .ok st
  else
    match parse t with
    | none => .ok st
    | some (.done fr tot tr) => .ok { st with result := some ⟨fr, tot, tr⟩ }
    | some (.error m) => .error m
    | some _ => .ok st

/-- The whole NDJSON consumer over a sequence of reader chunks. -/
def runConsumer (parse : List Char → Option SEvent)
    (chunks : List (List Char)) : Except String ConsumerState :=
  match chunks.foldlM (feedChunk parse) ([], initialConsumerState) with
  | .ok acc => flushBuffer parse acc.1 acc.2
  | .error m => .error m

/-- A concrete stand-in for JSON parsing over a four-line toy protocol,
used in the worked examples. -/
def toyParse (s : List Char) : Option SEvent :=
  if s = ['S'] then some (.start 5)
  else if s = ['P', '2'] then some (.progress 2)
  else if s = ['D'] then some (.done [] 5 false)
  else if s = ['E'] then some (.error "boom")
  else none

/-- The progress bar width computed by the consumer (App.jsx line 278):
the percentage is clamped at 100 before display. -/
def progressBarWidth (progressCurrent progressTotal : ℚ) : ℚ :=
  min 100 (progressCurrent / progressTotal * 100)

/-- An optional angle that is either absent or within [0, 180]. -/
def inAngleRange (o : Option ℝ) : Prop := ∀ θ ∈ o, 0 ≤ θ ∧ θ ≤ 180

/-- A well-formed data row used by the worked example. -/
def goodRow : RawRow := ⟨[some 0, some 1, some 0, some 0, some 0]⟩

/-- A malformed data row with the wrong column count. -/
def wrongColumnsRow : RawRow := ⟨[some 0, some 1]⟩

/-- A malformed data row with a non-numeric field. -/
def nonNumericRow : RawRow := ⟨[some 0, none, some 0, some 0, some 0]⟩

/-- A 100-row input containing exactly two malformed rows. -/
def exampleRows : List RawRow :=
  List.replicate 49 goodRow ++ [wrongColumnsRow] ++
    List.replicate 49 goodRow ++ [nonNumericRow]

/- Basic range facts about the geometry kernel. -/
lemma clamp_le_hi {lo hi : ℝ} (x : ℝ) (h : lo ≤ hi) : clamp x lo hi ≤ hi := by
  unfold clamp
  exact max_le h (min_le_left _ _)

lemma lo_le_clamp {lo hi : ℝ} (x : ℝ) : lo ≤ clamp x lo hi := le_max_left _ _

lemma joint_angle_range {a b c : Point3} {θ : ℝ}
    (h : joint_angle a b c = some θ) : 0 ≤ θ ∧ θ ≤ 180 := by
  unfold joint_angle at h
  by_cases hz : (a.sub b).norm = 0 ∨ (c.sub b).norm = 0
  · simp [hz] at h
  · simp only [hz, if_false, Option.some.injEq] at h
    subst h
    constructor
    · have h1 := Real.arccos_nonneg
        (clamp ((a.sub b).dot (c.sub b) / ((a.sub b).norm * (c.sub b).norm)) (-1) 1)
      positivity
    · have h2 := Real.arccos_le_pi
        (clamp ((a.sub b).dot (c.sub b) / ((a.sub b).norm * (c.sub b).norm)) (-1) 1)
      rw [div_le_iff₀ Real.pi_pos]
      calc Real.arccos _ * 180 ≤ π * 180 := by nlinarith
        _ = 180 * π := by ring

lemma arccos_le_pi_div_two_of_nonneg {x : ℝ} (hx : 0 ≤ x) :
    Real.arccos x ≤ π / 2 := by
  rw [Real.arccos_eq_pi_div_two_sub_arcsin]
  have := Real.arcsin_nonneg.mpr hx
  linarith

lemma relative_rotation_angle_range (q1 q2 : Quat) :
    0 ≤ relative_rotation_angle q1 q2 ∧ relative_rotation_angle q1 q2 ≤ 180 := by
  unfold relative_rotation_angle
  set c := clamp |(Quat.mul q1.normalize.conj q2.normalize).w| 0 1 with hc
  have hc0 : (0 : ℝ) ≤ c := lo_le_clamp _
  have h1 : 0 ≤ Real.arccos c := Real.arccos_nonneg c
  have h2 : Real.arccos c ≤ π / 2 := arccos_le_pi_div_two_of_nonneg hc0
  constructor
  · positivity
  · rw [div_le_iff₀ Real.pi_pos]
    nlinarith

/-- Closed form of the governor loop: it keeps the stride-filtered frames,
cut to the remaining budget, and truncates exactly when the filtered
frames fill the budget. -/
lemma governRun_eq (frame_skip max_frames : ℕ) (frames : List Frame) (cnt : ℕ)
    (h : max_frames = 0 ∨ cnt < max_frames) :
    governRun frame_skip max_frames frames cnt =
      if 0 < max_frames ∧ max_frames ≤ cnt + (sampleFrames frame_skip frames).length
      then ((sampleFrames frame_skip frames).take (max_frames - cnt), true)
      else (sampleFrames frame_skip frames, false) := by
  induction frames generalizing cnt with
  | nil =>
    have hnc : ¬ (0 < max_frames ∧ max_frames ≤ cnt) := by omega
    simp [governRun, sampleFrames, hnc]
  | cons f rest ih =>
    by_cases hk : keepFrame frame_skip f
    · have hlen : (sampleFrames frame_skip (f :: rest)).length =
          (sampleFrames frame_skip rest).length + 1 := by
        simp [sampleFrames, hk]
      by_cases hcap : 0 < max_frames ∧ max_frames ≤ cnt + 1
      · have hmc : max_frames - cnt = 1 := by omega
        have hle : max_frames ≤ cnt + ((List.filter (keepFrame frame_skip) rest).length + 1) := by
          omega
        simp [governRun, hk, hcap, sampleFrames, hle, hmc, List.take_succ_cons]
      · have h2 : max_frames = 0 ∨ cnt + 1 < max_frames := by omega
        have hrec := ih (cnt + 1) h2
        simp only [governRun, hk, if_true, if_neg hcap, hrec]
        by_cases hcond : 0 < max_frames ∧
            max_frames ≤ cnt + 1 + (sampleFrames frame_skip rest).length
        · have hcond2 : 0 < max_frames ∧
              max_frames ≤ cnt + (sampleFrames frame_skip (f :: rest)).length := by omega
          have htake : max_frames - cnt = (max_frames - (cnt + 1)) + 1 := by omega
          rw [if_pos hcond, if_pos hcond2]
          simp [sampleFrames, hk, htake, List.take_succ_cons]
        · have hcond2 : ¬ (0 < max_frames ∧
              max_frames ≤ cnt + (sampleFrames frame_skip (f :: rest)).length) := by omega
          rw [if_neg hcond, if_neg hcond2]
          simp [sampleFrames, hk]
    · have hrec := ih cnt h
      have hs : sampleFrames frame_skip (f :: rest) = sampleFrames frame_skip rest := by
        simp [sampleFrames, hk]
      simp [governRun, hk, hrec, hs]

/-- Closed form of a full governor pass. -/
lemma governFrames_eq (frame_skip max_frames : ℕ) (frames : List Frame) :
    governFrames frame_skip max_frames frames =
      if 0 < max_frames ∧ max_frames ≤ (sampleFrames frame_skip frames).length
      then ((sampleFrames frame_skip frames).take max_frames, true)
      else (sampleFrames frame_skip frames, false) := by
  have h := governRun_eq frame_skip max_frames frames 0 (by omega)
  simpa [governFrames] using h

lemma measureFrame_frame_index (extract : Frame → Option LandmarkSet) (f : Frame) :
    (measureFrame extract f).frame_index = f.index := by
  unfold measureFrame
  cases extract f <;> rfl

lemma sampleFrames_map_index (frame_skip : ℕ) (l : List Frame) :
    (sampleFrames frame_skip l).map Frame.index =
      (l.map Frame.index).filter fun i => i % frame_skip == 0 := by
  induction l with
  | nil => rfl
  | cons f rest ih =>
    by_cases hp : f.index % frame_skip == 0
    · simp only [sampleFrames, List.filter_cons, List.map_cons] at ih ⊢
      simp [keepFrame, hp, ih]
    · simp only [sampleFrames, List.filter_cons, List.map_cons] at ih ⊢
      simp [keepFrame, hp, ih]

lemma progressIndices_cons_progress (i : ℕ) (l : List StreamEvent) :
    progressIndices (StreamEvent.progress i :: l) = i :: progressIndices l := rfl

lemma progressIndices_map_progress (l : List Frame) (rest : List StreamEvent) :
    progressIndices (l.map (fun f => StreamEvent.progress f.index) ++ rest) =
      l.map Frame.index ++ progressIndices rest := by
  induction l with
  | nil => rfl
  | cons f fs ih => simp [progressIndices] at ih ⊢; exact ih

lemma progressIndices_cons_start (n : ℕ) (l : List StreamEvent) :
    progressIndices (StreamEvent.start n :: l) = progressIndices l := rfl

lemma progressIndices_runIncremental (extract : Frame → Option LandmarkSet)
    (frame_skip max_frames : ℕ) (frames : List Frame) :
    progressIndices (runIncremental extract frame_skip max_frames frames none) =
      (governFrames frame_skip max_frames frames).1.map Frame.index := by
  unfold runIncremental
  rw [progressIndices_cons_start, progressIndices_map_progress]
  simp [progressIndices]

lemma startTotals_runIncremental (extract : Frame → Option LandmarkSet)
    (frame_skip max_frames : ℕ) (frames : List Frame) (failAfter : Option ℕ) :
    startTotals (runIncremental extract frame_skip max_frames frames failAfter) =
      [(governFrames frame_skip max_frames frames).1.length] := by
  cases failAfter with
  | none =>
    unfold runIncremental startTotals
    simp [List.filterMap_append, List.filterMap_map]
  | some k =>
    unfold runIncremental startTotals
    simp [List.filterMap_append, List.filterMap_map]
    intro a ha
    have ha2 := List.mem_of_mem_take ha
    obtain ⟨f, -, rfl⟩ := List.mem_map.mp ha2
    rfl

lemma isStart_of_isProgress {e : StreamEvent} (h : e.isProgress = true) :
    e.isStart = false := by
  cases e <;> simp_all [StreamEvent.isProgress, StreamEvent.isStart]

lemma protocol_shape (n : ℕ) (mid : List StreamEvent) (term : StreamEvent)
    (hmid : ∀ e ∈ mid, e.isProgress = true) (hterm : term.isTerminal = true) :
    (StreamEvent.start n :: (mid ++ [term])).countP StreamEvent.isStart = 1 ∧
    (StreamEvent.start n :: (mid ++ [term])).countP StreamEvent.isTerminal = 1 ∧
    (StreamEvent.start n :: (mid ++ [term])).head? = some (StreamEvent.start n) ∧
    (StreamEvent.start n :: (mid ++ [term])).getLast? = some term ∧
    (∀ e ∈ ((StreamEvent.start n :: (mid ++ [term])).drop 1).dropLast,
        e.isProgress = true) := by
  have hmid_start : ∀ e ∈ mid, e.isStart = false := fun e he =>
    isStart_of_isProgress (hmid e he)
  have hmid_term : ∀ e ∈ mid, e.isTerminal = false := by
    intro e he
    have := hmid e he
    cases e <;> simp_all [StreamEvent.isProgress, StreamEvent.isTerminal]
  have hterm_start : term.isStart = false := by
    cases term <;> simp_all [StreamEvent.isTerminal, StreamEvent.isStart]
  refine ⟨?_, ?_, rfl, ?_, ?_⟩
  · rw [List.countP_cons, List.countP_append,
        List.countP_eq_zero.mpr (by simpa using hmid_start)]
    have h1 : List.countP StreamEvent.isStart [term] = 0 := by
      rw [List.countP_cons, List.countP_nil, hterm_start]
      rfl
    rw [h1]
    rfl
  · rw [List.countP_cons, List.countP_append,
        List.countP_eq_zero.mpr (by simpa using hmid_term)]
    have h1 : List.countP StreamEvent.isTerminal [term] = 1 := by
      rw [List.countP_cons, List.countP_nil, hterm]
      rfl
    rw [h1]
    rfl
  · rw [show StreamEvent.start n :: (mid ++ [term]) =
        (StreamEvent.start n :: mid) ++ [term] from rfl]
    exact List.getLast?_concat _
  · simpa [List.dropLast_concat] using hmid

lemma governFrames_sublist (frame_skip max_frames : ℕ) (frames : List Frame) :
    (governFrames frame_skip max_frames frames).1.Sublist frames := by
  rw [governFrames_eq]
  by_cases hc : 0 < max_frames ∧ max_frames ≤ (sampleFrames frame_skip frames).length
  · rw [if_pos hc]
    exact (List.take_sublist _ _).trans (List.filter_sublist _)
  · rw [if_neg hc]
    exact List.filter_sublist _

lemma runBuffered_indices (extract : Frame → Option LandmarkSet)
    (frame_skip max_frames : ℕ) (frames : List Frame) :
    (runBuffered extract frame_skip max_frames frames).measurements.map
        AngleMeasurement.frame_index =
      (governFrames frame_skip max_frames frames).1.map Frame.index := by
  unfold runBuffered
  rw [List.map_map]
  simp [Function.comp, measureFrame_frame_index]

lemma pi_mul_180_div_pi : π * 180 / π = 180 := by
  field_simp

lemma angleFromTriple_range (lms : LandmarkSet) (i j k : Fin 33) :
    inAngleRange (angleFromTriple lms i j k) := by
  intro θ hθ
  unfold angleFromTriple at hθ
  split at hθ
  · exact joint_angle_range hθ
  · simp at hθ

lemma Quat.normalize_of_norm_one {q : Quat} (h : q.qnorm = 1) : q.normalize = q := by
  unfold Quat.normalize
  rw [h, if_neg one_ne_zero]
  cases q
  simp [Quat.scale]

lemma conj_mul_self_w (q : Quat) :
    (Quat.mul q.conj q).w = q.w ^ 2 + q.x ^ 2 + q.y ^ 2 + q.z ^ 2 := by
  cases q
  simp [Quat.mul, Quat.conj]
  ring

lemma conj_mul_w_symm (a b : Quat) :
    (Quat.mul a.conj b).w = (Quat.mul b.conj a).w := by
  cases a
  cases b
  simp [Quat.mul, Quat.conj]
  ring

lemma rra_self {q : Quat} (h : q.qnorm = 1) : relative_rotation_angle q q = 0 := by
  unfold relative_rotation_angle
  rw [Quat.normalize_of_norm_one h]
  dsimp only
  rw [conj_mul_self_w]
  have hs : q.w ^ 2 + q.x ^ 2 + q.y ^ 2 + q.z ^ 2 = 1 := by
    have h2 := h
    unfold Quat.qnorm at h2
    nlinarith [Real.sq_sqrt (show (0:ℝ) ≤ q.w ^ 2 + q.x ^ 2 + q.y ^ 2 + q.z ^ 2 by positivity),
      Real.sqrt_nonneg (q.w ^ 2 + q.x ^ 2 + q.y ^ 2 + q.z ^ 2)]
  rw [hs]
  have hcl : clamp |(1 : ℝ)| 0 1 = 1 := by
    unfold clamp
    norm_num
  rw [hcl, Real.arccos_one]
  simp

lemma rra_symm (q1 q2 : Quat) :
    relative_rotation_angle q1 q2 = relative_rotation_angle q2 q1 := by
  unfold relative_rotation_angle
  dsimp only
  rw [conj_mul_w_symm]

lemma angleSeries_self_zero (s : List Quat) (hs : ∀ r ∈ s, Quat.qnorm r = 1) :
    angleSeries s s = List.replicate s.length 0 := by
  induction s with
  | nil => rfl
  | cons r rest ih =>
    have hr : Quat.qnorm r = 1 := hs r (by simp)
    have hrest : ∀ x ∈ rest, Quat.qnorm x = 1 := fun x hx => hs x (by simp [hx])
    unfold angleSeries at ih ⊢
    rw [List.zipWith_cons_cons, List.length_cons, List.replicate_succ,
      rra_self hr, ih hrest]

lemma parse_partition (rows : List RawRow) :
    (parseStream rows).1.length + (parseStream rows).2 = rows.length := by
  unfold parseStream
  induction rows with
  | nil => rfl
  | cons r rest ih =>
    dsimp only at ih
    simp only [List.filterMap_cons, List.countP_cons, List.length_cons]
    cases hr : parseRow r with
    | none =>
      dsimp only
      simp only [Option.isNone_none, if_true]
      omega
    | some s =>
      dsimp only
      simp only [Option.isNone_some, Bool.false_eq_true, if_false, List.length_cons]
      omega

lemma analyzeImu_series_length (rows1 rows2 : List RawRow) :
    (analyzeImu rows1 rows2).angles.length =
      min (parseStream rows1).1.length (parseStream rows2).1.length := by
  unfold analyzeImu
  rw [List.length_map, List.length_zip]

lemma except_ok_bind {α β : Type} (x : α) (f : α → Except String β) :
    (Except.ok x >>= f) = f x := rfl

lemma except_error_bind {α β : Type} (e : String) (f : α → Except String β) :
    ((Except.error e : Except String α) >>= f) = Except.error e := rfl

lemma handleLine_not_error_of_skip (parse : List Char → Option SEvent)
    (st : ConsumerState) (line : List Char)
    (hbad : parse (trimChars line) = none) :
    handleLine parse st line = Except.ok st := by
  unfold handleLine
  dsimp only
  split
  · rfl
  · rw [hbad]

lemma handleLine_error_parse (parse : List Char → Option SEvent)
    (st : ConsumerState) (line : List Char) (m : String)
    (h : handleLine parse st line = Except.error m) :
    parse (trimChars line) = some (SEvent.error m) := by
  unfold handleLine at h
  dsimp only at h
  split at h
  · exact absurd h (by simp)
  · cases hp : parse (trimChars line) with
    | none => rw [hp] at h; simp at h
    | some ev =>
      rw [hp] at h
      cases ev <;> simp_all

lemma processLines_error_parse (parse : List Char → Option SEvent)
    (lines : List (List Char)) (st : ConsumerState) (m : String)
    (h : processLines parse st lines = Except.error m) :
    ∃ s, parse s = some (SEvent.error m) := by
  induction lines generalizing st with
  | nil =>
    rw [processLines, List.foldlM_nil] at h
    exact Except.noConfusion h
  | cons l rest ih =>
    rw [processLines, List.foldlM_cons] at h
    cases hl : handleLine parse st l with
    | error e =>
      rw [hl, except_error_bind] at h
      cases h
      exact ⟨trimChars l, handleLine_error_parse parse st l m hl⟩
    | ok st2 =>
      rw [hl, except_ok_bind] at h
      exact ih st2 h

lemma feedChunk_error_parse (parse : List Char → Option SEvent)
    (acc : List Char × ConsumerState) (chunk : List Char) (m : String)
    (h : feedChunk parse acc chunk = Except.error m) :
    ∃ s, parse s = some (SEvent.error m) := by
  unfold feedChunk at h
  dsimp only at h
  cases hp : processLines parse acc.2 ((splitNl (acc.1 ++ chunk)).dropLast) with
  | ok st => rw [hp] at h; simp at h
  | error e =>
    rw [hp] at h
    cases h
    exact processLines_error_parse parse _ acc.2 m hp

lemma chunksFold_error_parse (parse : List Char → Option SEvent)
    (chunks : List (List Char)) (acc : List Char × ConsumerState) (m : String)
    (h : chunks.foldlM (feedChunk parse) acc = Except.error m) :
    ∃ s, parse s = some (SEvent.error m) := by
  induction chunks generalizing acc with
  | nil =>
    rw [List.foldlM_nil] at h
    exact Except.noConfusion h
  | cons c rest ih =>
    rw [List.foldlM_cons] at h
    cases hc : feedChunk parse acc c with
    | error e =>
      rw [hc, except_error_bind] at h
      cases h
      exact feedChunk_error_parse parse acc c m hc
    | ok acc2 =>
      rw [hc, except_ok_bind] at h
      exact ih acc2 h

lemma flushBuffer_error_parse (parse : List Char → Option SEvent)
    (buffer : List Char) (st : ConsumerState) (m : String)
    (h : flushBuffer parse buffer st = Except.error m) :
    ∃ s, parse s = some (SEvent.error m) := by
  unfold flushBuffer at h
  dsimp only at h
  split at h
  · exact absurd h (by simp)
  · cases hp : parse (trimChars buffer) with
    | none => rw [hp] at h; simp at h
    | some ev =>
      rw [hp] at h
      refine ⟨trimChars buffer, ?_⟩
      rw [hp]
      cases ev <;> simp_all

lemma runConsumer_error_parse (parse : List Char → Option SEvent)
    (chunks : List (List Char)) (m : String)
    (h : runConsumer parse chunks = Except.error m) :
    ∃ s, parse s = some (SEvent.error m) := by
  unfold runConsumer at h
  cases hf : chunks.foldlM (feedChunk parse) ([], initialConsumerState) with
  | ok acc =>
    rw [hf] at h
    exact flushBuffer_error_parse parse acc.1 acc.2 m h
  | error e =>
    rw [hf] at h
    cases h
    exact chunksFold_error_parse parse chunks _ m hf

/-- C1: every incremental run emits exactly one Start event, which comes
first, zero or more Progress events in the middle, and exactly one
terminal event (Done on success, Error on failure), which comes last;
every event carries one of the four NDJSON discriminator values start,
progress, done and error. -/
theorem stream_event_protocol (extract : Frame → Option LandmarkSet)
    (frame_skip max_frames : ℕ) (frames : List Frame) (failAfter : Option ℕ) :
    (runIncremental extract frame_skip max_frames frames failAfter).countP
        StreamEvent.isStart = 1 ∧
    (runIncremental extract frame_skip max_frames frames failAfter).countP
        StreamEvent.isTerminal = 1 ∧
    ((runIncremental extract frame_skip max_frames frames failAfter).head?).map
        StreamEvent.isStart = some true ∧
    ((runIncremental extract frame_skip max_frames frames failAfter).getLast?).map
        StreamEvent.isTerminal = some true ∧
    (∀ e ∈ ((runIncremental extract frame_skip max_frames frames failAfter).drop 1).dropLast,
        e.isProgress = true) ∧
    (∀ e ∈ runIncremental extract frame_skip max_frames frames failAfter,
        eventTag e = "start" ∨ eventTag e = "progress" ∨
        eventTag e = "done" ∨ eventTag e = "error") := by
  have htags : ∀ e : StreamEvent,
      eventTag e = "start" ∨ eventTag e = "progress" ∨
      eventTag e = "done" ∨ eventTag e = "error" := by
    intro e
    cases e <;> simp [eventTag]
  cases failAfter with
  | none =>
    have hshape := protocol_shape
      (governFrames frame_skip max_frames frames).1.length
      ((governFrames frame_skip max_frames frames).1.map
        (fun f => StreamEvent.progress f.index))
      (StreamEvent.done
        ((governFrames frame_skip max_frames frames).1.map (measureFrame extract))
        (governFrames frame_skip max_frames frames).1.length
        (governFrames frame_skip max_frames frames).2)
      (by
        intro e he
        obtain ⟨f, -, rfl⟩ := List.mem_map.mp he
        rfl)
      rfl
    refine ⟨hshape.1, hshape.2.1, ?_, ?_, hshape.2.2.2.2, fun e _ => htags e⟩
    · rw [show runIncremental extract frame_skip max_frames frames none =
        StreamEvent.start (governFrames frame_skip max_frames frames).1.length ::
          ((governFrames frame_skip max_frames frames).1.map
              (fun f => StreamEvent.progress f.index) ++
            [StreamEvent.done
              ((governFrames frame_skip max_frames frames).1.map (measureFrame extract))
              (governFrames frame_skip max_frames frames).1.length
              (governFrames frame_skip max_frames frames).2]) from rfl]
      rw [hshape.2.2.1]
      rfl
    · rw [show runIncremental extract frame_skip max_frames frames none =
        StreamEvent.start (governFrames frame_skip max_frames frames).1.length ::
          ((governFrames frame_skip max_frames frames).1.map
              (fun f => StreamEvent.progress f.index) ++
            [StreamEvent.done
              ((governFrames frame_skip max_frames frames).1.map (measureFrame extract))
              (governFrames frame_skip max_frames frames).1.length
              (governFrames frame_skip max_frames frames).2]) from rfl]
      rw [hshape.2.2.2.1]
      rfl
  | some k =>
    have hshape := protocol_shape
      (governFrames frame_skip max_frames frames).1.length
      (((governFrames frame_skip max_frames frames).1.take k).map
        (fun f => StreamEvent.progress f.index))
      (StreamEvent.error "analysis failed")
      (by
        intro e he
        obtain ⟨f, -, rfl⟩ := List.mem_map.mp he
        rfl)
      rfl
    refine ⟨hshape.1, hshape.2.1, ?_, ?_, hshape.2.2.2.2, fun e _ => htags e⟩
    · rw [show runIncremental extract frame_skip max_frames frames (some k) =
        StreamEvent.start (governFrames frame_skip max_frames frames).1.length ::
          (((governFrames frame_skip max_frames frames).1.take k).map
              (fun f => StreamEvent.progress f.index) ++
            [StreamEvent.error "analysis failed"]) from rfl]
      rw [hshape.2.2.1]
      rfl
    · rw [show runIncremental extract frame_skip max_frames frames (some k) =
        StreamEvent.start (governFrames frame_skip max_frames frames).1.length ::
          (((governFrames frame_skip max_frames frames).1.take k).map
              (fun f => StreamEvent.progress f.index) ++
            [StreamEvent.error "analysis failed"]) from rfl]
      rw [hshape.2.2.2.1]
      rfl

/-- C2: for a run with positive max_frames, the truncated flag is true
exactly when the number of stride-sampled frames reaches max_frames;
when the frame source runs out first the flag stays false. -/
theorem truncated_iff_cap_reached (frame_skip max_frames : ℕ) (frames : List Frame)
    (h : 0 < max_frames) :
    (governFrames frame_skip max_frames frames).2 = true ↔
      max_frames ≤ (sampleFrames frame_skip frames).length := by
  rw [governFrames_eq]
  by_cases hc : max_frames ≤ (sampleFrames frame_skip frames).length
  · simp [h, hc]
  · simp [h, hc]

/-- Witness for C2 at a 10-frame source with stride 2 and cap 3. -/
theorem truncated_iff_cap_reached_witness :
    0 < 3 ∧ ((governFrames 2 3 (mkFrames 10)).2 = true ↔
      3 ≤ (sampleFrames 2 (mkFrames 10)).length) :=
  ⟨by decide, truncated_iff_cap_reached 2 3 (mkFrames 10) (by decide)⟩

/-- C3: the governor keeps exactly the frames whose original index is a
multiple of frame_skip, in native order, for any stride in [1,4]; a
10-frame source with stride 2 yields original indices 0,2,4,6,8, and
adding max_frames = 3 yields 0,2,4 with the truncated flag set. -/
theorem stride_sampling (frame_skip : ℕ) (frames : List Frame)
    (h1 : 1 ≤ frame_skip) (h4 : frame_skip ≤ 4) :
    ((governFrames frame_skip 0 frames).1.map Frame.index =
       (frames.map Frame.index).filter (fun i => i % frame_skip == 0)) ∧
    (governFrames 2 0 (mkFrames 10)).1.map Frame.index = [0, 2, 4, 6, 8] ∧
    (governFrames 2 3 (mkFrames 10)).1.map Frame.index = [0, 2, 4] ∧
    (governFrames 2 3 (mkFrames 10)).2 = true := by
  refine ⟨?_, by decide, by decide, by decide⟩
  rw [governFrames_eq]
  simp only [lt_irrefl, false_and, if_false]
  exact sampleFrames_map_index frame_skip frames

/-- Witness for C3 at stride 2 over a 10-frame source. -/
theorem stride_sampling_witness :
    (1 ≤ 2 ∧ 2 ≤ 4) ∧
    (((governFrames 2 0 (mkFrames 10)).1.map Frame.index =
       ((mkFrames 10).map Frame.index).filter (fun i => i % 2 == 0)) ∧
     (governFrames 2 0 (mkFrames 10)).1.map Frame.index = [0, 2, 4, 6, 8] ∧
     (governFrames 2 3 (mkFrames 10)).1.map Frame.index = [0, 2, 4] ∧
     (governFrames 2 3 (mkFrames 10)).2 = true) :=
  ⟨by decide, stride_sampling 2 (mkFrames 10) (by decide) (by decide)⟩

/-- C4: for the same input and configuration the incremental stream and
the buffered result agree: the Progress frame indices equal the frame
indices of the buffered measurement sequence, and they are strictly
increasing (hence duplicate-free) whenever the source indices are. -/
theorem buffered_incremental_agree (extract : Frame → Option LandmarkSet)
    (frame_skip max_frames : ℕ) (frames : List Frame)
    (hmono : (frames.map Frame.index).Pairwise (· < ·)) :
    progressIndices (runIncremental extract frame_skip max_frames frames none) =
      (runBuffered extract frame_skip max_frames frames).measurements.map
        AngleMeasurement.frame_index ∧
    (progressIndices
        (runIncremental extract frame_skip max_frames frames none)).Pairwise (· < ·) := by
  rw [progressIndices_runIncremental, runBuffered_indices]
  refine ⟨rfl, ?_⟩
  exact hmono.sublist ((governFrames_sublist frame_skip max_frames frames).map Frame.index)

/-- Witness for C4 at a 5-frame source with stride 2 and cap 3. -/
theorem buffered_incremental_agree_witness :
    ((mkFrames 5).map Frame.index).Pairwise (· < ·) ∧
    (progressIndices (runIncremental (fun _ => none) 2 3 (mkFrames 5) none) =
      (runBuffered (fun _ => none) 2 3 (mkFrames 5)).measurements.map
        AngleMeasurement.frame_index ∧
     (progressIndices
        (runIncremental (fun _ => none) 2 3 (mkFrames 5) none)).Pairwise (· < ·)) :=
  ⟨by decide, buffered_incremental_agree (fun _ => none) 2 3 (mkFrames 5) (by decide)⟩

/-- C5: whenever both rays have nonzero length, joint_angle equals the
arccosine of the clamped normalized dot product converted to degrees;
coincident points give an absent result rather than an error; the
collinear example gives 180 and the right-angle example gives 90. -/
theorem joint_angle_formula (a b c : Point3)
    (hu : (a.sub b).norm ≠ 0) (hv : (c.sub b).norm ≠ 0) :
    joint_angle a b c =
      some (Real.arccos (clamp ((a.sub b).dot (c.sub b) /
        ((a.sub b).norm * (c.sub b).norm)) (-1) 1) * 180 / π) ∧
    (∀ p q r : Point3, (p.sub q).norm = 0 ∨ (r.sub q).norm = 0 →
      joint_angle p q r = none) ∧
    joint_angle ⟨0, 0, 0⟩ ⟨1, 0, 0⟩ ⟨2, 0, 0⟩ = some 180 ∧
    joint_angle ⟨1, 0, 0⟩ ⟨0, 0, 0⟩ ⟨0, 1, 0⟩ = some 90 := by
  refine ⟨?_, ?_, ?_, ?_⟩
  · unfold joint_angle
    rw [if_neg (not_or.mpr ⟨hu, hv⟩)]
  · intro p q r h
    unfold joint_angle
    rw [if_pos h]
  · have hsub1 : Point3.sub ⟨0, 0, 0⟩ ⟨1, 0, 0⟩ = ⟨-1, 0, 0⟩ := by
      unfold Point3.sub
      norm_num
    have hsub2 : Point3.sub ⟨2, 0, 0⟩ ⟨1, 0, 0⟩ = ⟨1, 0, 0⟩ := by
      unfold Point3.sub
      norm_num
    have hn : Point3.norm ⟨-1, 0, 0⟩ = 1 := by
      unfold Point3.norm Point3.dot
      norm_num
    have hn2 : Point3.norm ⟨1, 0, 0⟩ = 1 := by
      unfold Point3.norm Point3.dot
      norm_num
    have hd : Point3.dot ⟨-1, 0, 0⟩ ⟨1, 0, 0⟩ = -1 := by
      unfold Point3.dot
      norm_num
    unfold joint_angle
    rw [hsub1, hsub2]
    dsimp only
    rw [hn, hn2, hd]
    rw [if_neg (by norm_num)]
    have hcl : clamp (-1 / (1 * 1)) (-1) 1 = -1 := by
      unfold clamp
      norm_num
    rw [hcl, Real.arccos_neg_one, pi_mul_180_div_pi]
  · have hsub1 : Point3.sub ⟨1, 0, 0⟩ ⟨0, 0, 0⟩ = ⟨1, 0, 0⟩ := by
      unfold Point3.sub
      norm_num
    have hsub2 : Point3.sub ⟨0, 1, 0⟩ ⟨0, 0, 0⟩ = ⟨0, 1, 0⟩ := by
      unfold Point3.sub
      norm_num
    have hn : Point3.norm ⟨1, 0, 0⟩ = 1 := by
      unfold Point3.norm Point3.dot
      norm_num
    have hn2 : Point3.norm ⟨0, 1, 0⟩ = 1 := by
      unfold Point3.norm Point3.dot
      norm_num
    have hd : Point3.dot ⟨1, 0, 0⟩ ⟨0, 1, 0⟩ = 0 := by
      unfold Point3.dot
      norm_num
    unfold joint_angle
    rw [hsub1, hsub2]
    dsimp only
    rw [hn, hn2, hd]
    rw [if_neg (by norm_num)]
    have hcl : clamp (0 / (1 * 1)) (-1) 1 = 0 := by
      unfold clamp
      norm_num
    rw [hcl, Real.arccos_zero]
    congr 1
    field_simp
    ring

/-- Witness for C5 at the collinear example points. -/
theorem joint_angle_formula_witness :
    ((Point3.sub ⟨0, 0, 0⟩ ⟨1, 0, 0⟩).norm ≠ 0 ∧
     (Point3.sub ⟨2, 0, 0⟩ ⟨1, 0, 0⟩).norm ≠ 0) ∧
    (joint_angle ⟨0, 0, 0⟩ ⟨1, 0, 0⟩ ⟨2, 0, 0⟩ =
      some (Real.arccos (clamp ((Point3.sub ⟨0, 0, 0⟩ ⟨1, 0, 0⟩).dot
          (Point3.sub ⟨2, 0, 0⟩ ⟨1, 0, 0⟩) /
        ((Point3.sub ⟨0, 0, 0⟩ ⟨1, 0, 0⟩).norm *
          (Point3.sub ⟨2, 0, 0⟩ ⟨1, 0, 0⟩).norm)) (-1) 1) * 180 / π) ∧
     (∀ p q r : Point3, (p.sub q).norm = 0 ∨ (r.sub q).norm = 0 →
       joint_angle p q r = none) ∧
     joint_angle ⟨0, 0, 0⟩ ⟨1, 0, 0⟩ ⟨2, 0, 0⟩ = some 180 ∧
     joint_angle ⟨1, 0, 0⟩ ⟨0, 0, 0⟩ ⟨0, 1, 0⟩ = some 90) := by
  have hu : (Point3.sub ⟨0, 0, 0⟩ ⟨1, 0, 0⟩).norm ≠ 0 := by
    unfold Point3.sub Point3.norm Point3.dot
    norm_num
  have hv : (Point3.sub ⟨2, 0, 0⟩ ⟨1, 0, 0⟩).norm ≠ 0 := by
    unfold Point3.sub Point3.norm Point3.dot
    norm_num
  exact ⟨⟨hu, hv⟩, joint_angle_formula ⟨0, 0, 0⟩ ⟨1, 0, 0⟩ ⟨2, 0, 0⟩ hu hv⟩

/-- C6: every angle field of every measurement is absent or lies in
[0, 180], and on the quaternion path the absolute-value clamp before the
arccosine keeps the reported angle within [0, 180] as well. -/
theorem angle_fields_in_range (extract : Frame → Option LandmarkSet)
    (f : Frame) (q1 q2 : Quat) :
    inAngleRange (measureFrame extract f).left_elbow_deg ∧
    inAngleRange (measureFrame extract f).right_elbow_deg ∧
    inAngleRange (measureFrame extract f).left_hip_deg ∧
    inAngleRange (measureFrame extract f).right_hip_deg ∧
    inAngleRange (measureFrame extract f).left_knee_deg ∧
    inAngleRange (measureFrame extract f).right_knee_deg ∧
    0 ≤ relative_rotation_angle q1 q2 ∧ relative_rotation_angle q1 q2 ≤ 180 := by
  unfold measureFrame
  cases extract f with
  | none =>
    refine ⟨?_, ?_, ?_, ?_, ?_, ?_, (relative_rotation_angle_range q1 q2).1,
      (relative_rotation_angle_range q1 q2).2⟩ <;> intro θ hθ <;> simp at hθ
  | some lms =>
    exact ⟨angleFromTriple_range lms 11 13 15, angleFromTriple_range lms 12 14 16,
      angleFromTriple_range lms 11 23 25, angleFromTriple_range lms 12 24 26,
      angleFromTriple_range lms 23 25 27, angleFromTriple_range lms 24 26 28,
      (relative_rotation_angle_range q1 q2).1, (relative_rotation_angle_range q1 q2).2⟩

/-- C7: the relative rotation angle of a unit quaternion with itself is
zero, the function is symmetric in its two arguments, and two identical
unit-quaternion streams produce an all-zero angle series. -/
theorem rotation_angle_algebra (q q1 q2 : Quat) (s : List Quat)
    (hq : q.qnorm = 1) (hs : ∀ r ∈ s, Quat.qnorm r = 1) :
    relative_rotation_angle q q = 0 ∧
    relative_rotation_angle q1 q2 = relative_rotation_angle q2 q1 ∧
    angleSeries s s = List.replicate s.length 0 :=
  ⟨rra_self hq, rra_symm q1 q2, angleSeries_self_zero s hs⟩

/-- Witness for C7 at concrete unit quaternions. -/
theorem rotation_angle_algebra_witness :
    (Quat.qnorm ⟨1, 0, 0, 0⟩ = 1 ∧
     ∀ r ∈ [(⟨1, 0, 0, 0⟩ : Quat), ⟨0, 1, 0, 0⟩], Quat.qnorm r = 1) ∧
    (relative_rotation_angle ⟨1, 0, 0, 0⟩ ⟨1, 0, 0, 0⟩ = 0 ∧
     relative_rotation_angle ⟨1, 0, 0, 0⟩ ⟨0, 1, 0, 0⟩ =
       relative_rotation_angle ⟨0, 1, 0, 0⟩ ⟨1, 0, 0, 0⟩ ∧
     angleSeries [(⟨1, 0, 0, 0⟩ : Quat), ⟨0, 1, 0, 0⟩]
         [(⟨1, 0, 0, 0⟩ : Quat), ⟨0, 1, 0, 0⟩] =
       List.replicate (List.length [(⟨1, 0, 0, 0⟩ : Quat), ⟨0, 1, 0, 0⟩]) 0) := by
  have h1 : Quat.qnorm ⟨1, 0, 0, 0⟩ = 1 := by
    unfold Quat.qnorm
    norm_num
  have h2 : Quat.qnorm ⟨0, 1, 0, 0⟩ = 1 := by
    unfold Quat.qnorm
    norm_num
  have hs : ∀ r ∈ [(⟨1, 0, 0, 0⟩ : Quat), ⟨0, 1, 0, 0⟩], Quat.qnorm r = 1 := by
    intro r hr
    rcases List.mem_cons.mp hr with h | hr2
    · rw [h, h1]
    · rcases List.mem_cons.mp hr2 with h | h
      · rw [h, h2]
      · simp at h
  exact ⟨⟨h1, hs⟩,
    rotation_angle_algebra ⟨1, 0, 0, 0⟩ ⟨1, 0, 0, 0⟩ ⟨0, 1, 0, 0⟩ _ h1 hs⟩

/-- C8: malformed rows (wrong column count or non-numeric field) are
skipped and counted, the skipped count is surfaced to the caller next to
the angle series, the series pairs valid samples by ordinal position,
and a 100-row input with 2 malformed rows yields a 98-long series with a
skipped count of 2. -/
theorem malformed_rows_counted (rows rows1 rows2 : List RawRow) :
    (parseStream rows).2 = rows.countP (fun r => (parseRow r).isNone) ∧
    (parseStream rows).1.length + (parseStream rows).2 = rows.length ∧
    (analyzeImu rows1 rows2).angles.length =
      min (parseStream rows1).1.length (parseStream rows2).1.length ∧
    exampleRows.length = 100 ∧
    (parseStream exampleRows).1.length = 98 ∧
    (parseStream exampleRows).2 = 2 ∧
    (analyzeImu exampleRows exampleRows).angles.length = 98 := by
  refine ⟨rfl, parse_partition rows, analyzeImu_series_length rows1 rows2,
    by decide, by decide, by decide, ?_⟩
  rw [analyzeImu_series_length]
  decide

/-- C9 (amended): the Start event total is the planned processing count
after frame_skip and max_frames, each Progress event reports the
original video frame index, and the consumer clamps the displayed
progress-bar width at 100 because the raw fraction can exceed 1. -/
theorem start_total_planned (extract : Frame → Option LandmarkSet)
    (frame_skip max_frames : ℕ) (frames : List Frame) (cur tot : ℚ) :
    startTotals (runIncremental extract frame_skip max_frames frames none) =
      [(governFrames frame_skip max_frames frames).1.length] ∧
    progressIndices (runIncremental extract frame_skip max_frames frames none) =
      (governFrames frame_skip max_frames frames).1.map Frame.index ∧
    progressBarWidth cur tot ≤ 100 :=
  ⟨startTotals_runIncremental extract frame_skip max_frames frames none,
   progressIndices_runIncremental extract frame_skip max_frames frames,
   min_le_left _ _⟩

/-- C9 counterexample: with 10 frames and stride 2 the Start total is 5
while the last Progress index is 8, so the fraction 8 over 5 exceeds 1,
contradicting the claim that it cannot. -/
theorem progress_fraction_counterexample :
    startTotals (runIncremental (fun _ => none) 2 0 (mkFrames 10) none) = [5] ∧
    progressIndices (runIncremental (fun _ => none) 2 0 (mkFrames 10) none) =
      [0, 2, 4, 6, 8] ∧
    ¬ ((8 : ℚ) / 5 ≤ 1) :=
  ⟨by rfl, by rfl, by norm_num⟩

/-- C10: the stream consumer skips any line that fails to parse and
continues with the following lines, buffers incomplete trailing data
until the next newline (so chunk boundaries do not matter), and aborts
only on a parsed error event or a non-syntax failure. -/
theorem ndjson_consumer_tolerant (parse : List Char → Option SEvent)
    (st : ConsumerState) (line : List Char) (rest : List (List Char))
    (chunks : List (List Char)) (m : String)
    (hbad : parse (trimChars line) = none) :
    processLines parse st (line :: rest) = processLines parse st rest ∧
    (runConsumer parse chunks = Except.error m → ∃ s, parse s = some (SEvent.error m)) ∧
    runConsumer toyParse [['S', '\n', 'P'], ['2', '\n', 'D', '\n']] =
      runConsumer toyParse [['S', '\n', 'P', '2', '\n', 'D', '\n']] ∧
    runConsumer toyParse [['S', '\n', 'P'], ['2', '\n', 'D', '\n']] =
      Except.ok ⟨5, 2, some ⟨[], 5, false⟩⟩ ∧
    runConsumer toyParse [['S', '\n', '?', '\n', 'P', '2', '\n', 'D', '\n']] =
      Except.ok ⟨5, 2, some ⟨[], 5, false⟩⟩ := by
  refine ⟨?_, runConsumer_error_parse parse chunks m, by rfl, by rfl, by rfl⟩
  rw [processLines, processLines, List.foldlM_cons,
    handleLine_not_error_of_skip parse st line hbad]
  rfl

/-- Witness for C10 over the toy parse function. -/
theorem ndjson_consumer_tolerant_witness :
    toyParse (trimChars ['?']) = none ∧
    (processLines toyParse initialConsumerState [['?'], ['S']] =
      processLines toyParse initialConsumerState [['S']] ∧
     (runConsumer toyParse [['E', '\n']] = Except.error "boom" →
       ∃ s, toyParse s = some (SEvent.error "boom")) ∧
     runConsumer toyParse [['S', '\n', 'P'], ['2', '\n', 'D', '\n']] =
       runConsumer toyParse [['S', '\n', 'P', '2', '\n', 'D', '\n']] ∧
     runConsumer toyParse [['S', '\n', 'P'], ['2', '\n', 'D', '\n']] =
       Except.ok ⟨5, 2, some ⟨[], 5, false⟩⟩ ∧
     runConsumer toyParse [['S', '\n', '?', '\n', 'P', '2', '\n', 'D', '\n']] =
       Except.ok ⟨5, 2, some ⟨[], 5, false⟩⟩) :=
  ⟨by decide,
   ndjson_consumer_tolerant toyParse initialConsumerState ['?'] [['S']]
     [['E', '\n']] "boom" (by decide)⟩
